import Mathlib

/-!
Verification of the SuperBowlEngine five-keys / prediction pipeline.

This file is a shallow embedding, in Lean 4, of the core computational parts
of the repository `SuperBowlEngine`:

* `src/superbowlengine/utils/time.py`      (`mmss_to_seconds`)
* `src/superbowlengine/utils/math.py`      (`sigmoid`, `safe_div`)
* `src/superbowlengine/core/key_compare.py` (`compare_values`, `compare_5keys`)
* `src/superbowlengine/features/keys.py`   (`TeamKeys`, `compute_team_keys`,
  `aggregate_keys`)
* `src/superbowlengine/features/aggregate_weighted.py` (`aggregate_weighted_keys`)
* `src/superbowlengine/features/sos.py`    (`zscore_sos`)
* `src/superbowlengine/analysis/rank_keys.py` (`_percentile_rank`)
* `src/superbowlengine/models/professor_keys.py` (`predict`)

Modelling conventions (the Python source works on pandas frames and IEEE
floats; the embedding works on plain lists and exact numbers):

* Python `float` values are modelled by `ℚ` wherever the code only performs
  field operations and comparisons, and by `ℝ` where transcendental functions
  (`math.exp`, `** 0.5`) appear.  Literals such as `1e-9` or `-0.01` are read
  as exact decimal constants.
* Python's `round(x, n)` built-in (round-half-to-even on floats) is modelled
  by exact half-even decimal rounding (`roundHalfEven`, `round2`).
* A pandas column cell that may be `NaN`/missing is modelled as an `Option`
  value; `fillna(c)` becomes `Option.getD c`.  Column-level absence that the
  code distinguishes from cell-level `NaN` (`"no_play" in tdf.columns`,
  `"first_down" in third.columns`) is modelled by explicit table flags.
* A pandas `DataFrame` is a `List` of row structures; filtering, dropna,
  drop-duplicates and boolean-mask counting become `List.filter`,
  `List.countP`, and first-occurrence folds.
* Python dicts keep insertion order, so a dict result is a `List` of pairs.
-/

/-! ## Utility layer: rounding, safe division, truncation

`roundHalfEven` models Python's banker's rounding (`round(x)` /
`int(round(x, 0))`); `round2` models `round(x, 2)`.  `safe_div` embeds
`superbowlengine/utils/math.py::safe_div` (`a / b if b else 0.0`).
`intTrunc` models Python's `int()` applied to a float (truncation toward 0).
-/

/-- Round-half-to-even to the nearest integer, as Python's `round` built-in
behaves on exact values. -/
def roundHalfEven (x : ℚ) : ℤ :=
  let f : ℤ := ⌊x⌋
  let r : ℚ := x - f
  if r < 1/2 then f
  else if 1/2 < r then f + 1
  else if Even f then f else f + 1

/-- Python `round(x, 2)`: half-even rounding at two decimal places. -/
def round2 (x : ℚ) : ℚ :=
  (roundHalfEven (x * 100) : ℚ) / 100

/-- `utils/math.py::safe_div`: `a / b if b else 0.0`. -/
def safe_div (a b : ℚ) : ℚ :=
  if b = 0 then 0 else a / b

/-- Python `int()` on a float value: truncation toward zero. -/
def intTrunc (x : ℚ) : ℤ :=
  if 0 ≤ x then ⌊x⌋ else -⌊-x⌋

/-- `utils/math.py::sigmoid`: the logistic function `1 / (1 + exp(-x))`. -/
noncomputable def sigmoid (x : ℝ) : ℝ :=
  1 / (1 + Real.exp (-x))

/-! ## Data model: `TeamKeys`

`features/keys.py::TeamKeys`.  `top_min`, `third_down_pct`, `redzone_td_pct`
are floats (modelled `ℚ`); `turnovers`, `big_plays` and the four denominator
fields are Python ints (modelled `ℤ`). -/

/-- `features/keys.py::TeamKeys`: five keys plus the attempt/conversion
denominators retained for correct re-aggregation. -/
structure TeamKeys where
  team : String
  top_min : ℚ
  turnovers : ℤ
  big_plays : ℤ
  third_down_pct : ℚ
  redzone_td_pct : ℚ
  third_down_attempts : ℤ
  third_down_converted : ℤ
  redzone_trips : ℤ
  redzone_td_drives : ℤ
deriving DecidableEq, Repr

/-- `features/keys.py::_empty_team_keys`: zeroed `TeamKeys` for a team with
no plays. -/
def emptyTeamKeys (team : String) : TeamKeys :=
  { team := team
    top_min := 0
    turnovers := 0
    big_plays := 0
    third_down_pct := 0
    redzone_td_pct := 0
    third_down_attempts := 0
    third_down_converted := 0
    redzone_trips := 0
    redzone_td_drives := 0 }

/-! ## Key Comparator: `core/key_compare.py` -/

/-- `core/key_compare.py::KeyComparison`: winner label (team name or the
sentinel string `"TIE"`), raw margin `a - b`, and its absolute value. -/
structure KeyComparison where
  winner : String
  margin : ℚ
  abs_margin : ℚ
deriving DecidableEq, Repr

/-- The default epsilon `1e-9` of `compare_values` / `compare_5keys`. -/
def defaultEps : ℚ := 1 / 1000000000

/-- `core/key_compare.py::compare_values`.  The Python signature has default
arguments `higher_is_better=True, eps=1e-9`; callers in this file always pass
them explicitly. -/
def compare_values (a b : ℚ) (team_a team_b : String)
    (higher_is_better : Bool) (eps : ℚ) : KeyComparison :=
  let margin := a - b
  let am := abs margin
  if am ≤ eps then
    { winner := "TIE", margin := margin, abs_margin := am }
  else if higher_is_better then
    { winner := if b < a then team_a else team_b, margin := margin, abs_margin := am }
  else
    { winner := if a < b then team_a else team_b, margin := margin, abs_margin := am }

/-- `core/key_compare.py::compare_5keys`: the five comparisons in the dict
order `TOP, TO, BIG, 3D, RZ`.  `TO` is compared with lower-is-better. -/
def compare_5keys (keys_a keys_b : TeamKeys) (team_a team_b : String)
    (eps : ℚ) : List (String × KeyComparison) :=
  [ ("TOP", compare_values keys_a.top_min keys_b.top_min team_a team_b true eps)
  , ("TO", compare_values (keys_a.turnovers : ℚ) (keys_b.turnovers : ℚ) team_a team_b false eps)
  , ("BIG", compare_values (keys_a.big_plays : ℚ) (keys_b.big_plays : ℚ) team_a team_b true eps)
  , ("3D", compare_values keys_a.third_down_pct keys_b.third_down_pct team_a team_b true eps)
  , ("RZ", compare_values keys_a.redzone_td_pct keys_b.redzone_td_pct team_a team_b true eps) ]

/-! ### Name-independent comparison outcomes

`compare_values` reports the winner as a *string* (a team name or `"TIE"`).
To state naming-independent facts we factor the branch taken by
`compare_values` into a three-valued outcome; `compare_values_winner_eq`
proves the factoring correct. -/

/-- The three possible outcomes of one key comparison, independent of how the
teams are named. -/
inductive KeyOutcome where
  | awin
  | bwin
  | tie
deriving DecidableEq, Repr

/-- The branch `compare_values` takes, as a pure function of the compared
values, the direction flag and the epsilon. -/
def rawOutcome (higher_is_better : Bool) (a b eps : ℚ) : KeyOutcome :=
  if abs (a - b) ≤ eps then .tie
  else if higher_is_better then (if b < a then .awin else .bwin)
  else (if a < b then .awin else .bwin)

/-- How an outcome is printed as a winner label given the two team names. -/
def outcomeLabel (team_a team_b : String) : KeyOutcome → String
  | .awin => team_a
  | .bwin => team_b
  | .tie => "TIE"

/-- The five outcomes of `compare_5keys` at the default epsilon, in order. -/
def fiveOutcomes (a b : TeamKeys) : List KeyOutcome :=
  [ rawOutcome true a.top_min b.top_min defaultEps
  , rawOutcome false (a.turnovers : ℚ) (b.turnovers : ℚ) defaultEps
  , rawOutcome true (a.big_plays : ℚ) (b.big_plays : ℚ) defaultEps
  , rawOutcome true a.third_down_pct b.third_down_pct defaultEps
  , rawOutcome true a.redzone_td_pct b.redzone_td_pct defaultEps ]

/-- Name-independent win count for the first team: the number of the five
keys the first team wins outright (ties never count). -/
def winsA (a b : TeamKeys) : ℕ :=
  (fiveOutcomes a b).countP (fun o => o = KeyOutcome.awin)

/-- Name-independent win count for the second team. -/
def winsB (a b : TeamKeys) : ℕ :=
  (fiveOutcomes a b).countP (fun o => o = KeyOutcome.bwin)

/-- Name-independent tie count among the five keys. -/
def tiesCount (a b : TeamKeys) : ℕ :=
  (fiveOutcomes a b).countP (fun o => o = KeyOutcome.tie)

/-! ## Prediction Engine: `models/professor_keys.py::predict`

The Python `predict` resolves its `weights`/`divisors`/`config` keyword
arguments into one effective weight table and one divisor table before any
computation; the embedding takes those resolved tables as explicit records.
The display-only parts of the output (`round(p_a, 3)`, `round(logit, 4)`,
the sorted `top_3_drivers` list) are not modelled; probabilities are kept
exact. -/

/-- `models/professor_keys.py::TeamContext`: optional per-team context. -/
structure TeamContext where
  sos_z : ℚ
  expected_turnovers_per_game : Option ℚ
  dgi : ℚ
deriving DecidableEq, Repr

/-- `TeamContext()` with the Python default field values. -/
def defaultContext : TeamContext :=
  { sos_z := 0, expected_turnovers_per_game := none, dgi := 0 }

/-- The resolved weight table of `predict` (source `DEFAULT_WEIGHTS` merged
with the caller's `weights` or the `Config` fields). -/
structure Weights where
  turnover : ℚ
  key : ℚ
  sos : ℚ
  dgi : ℚ
  rule_bonus : ℚ
deriving DecidableEq, Repr

/-- `models/professor_keys.py::DEFAULT_WEIGHTS`
(`1.35, 0.55, 0.15, 0.12, 0.40`, matching `Config`'s defaults). -/
def defaultWeights : Weights :=
  { turnover := 27/20, key := 11/20, sos := 3/20, dgi := 3/25, rule_bonus := 2/5 }

/-- The resolved divisor table of `predict` (source `DEFAULT_DIVISORS` merged
with the caller's `divisors` or the `Config` fields). -/
structure Divisors where
  top : ℚ
  turnover : ℚ
  big_play : ℚ
  third_down : ℚ
  redzone : ℚ
deriving DecidableEq, Repr

/-- `models/professor_keys.py::DEFAULT_DIVISORS` (`6, 1, 2, 10, 12`). -/
def defaultDivisors : Divisors :=
  { top := 6, turnover := 1, big_play := 2, third_down := 10, redzone := 12 }

/-- `predict`: `key_winners = {k: comp.winner for k, comp in comparisons.items()}`
(the `comparisons` come from `compare_5keys` at the default epsilon). -/
def keyWinners (a b : TeamKeys) (na nb : String) : List (String × String) :=
  (compare_5keys a b na nb defaultEps).map (fun p => (p.1, p.2.winner))

/-- `predict`: `keys_a = sum(1 for w in key_winners.values() if w == team_a_name)`. -/
def keysWonA (a b : TeamKeys) (na nb : String) : ℕ :=
  ((keyWinners a b na nb).map (fun p => p.2)).countP (fun w => w = na)

/-- `predict`: `keys_b = sum(1 for w in key_winners.values() if w == team_b_name)`. -/
def keysWonB (a b : TeamKeys) (na nb : String) : ℕ :=
  ((keyWinners a b na nb).map (fun p => p.2)).countP (fun w => w = nb)

/-- `predict`: `tied_keys = [k for k, w in key_winners.items() if w == "TIE"]`. -/
def tiedKeys (a b : TeamKeys) (na nb : String) : List String :=
  ((keyWinners a b na nb).filter (fun p => p.2 = "TIE")).map (fun p => p.1)

/-- `predict`: `ties = len(tied_keys)`. -/
def tiesWon (a b : TeamKeys) (na nb : String) : ℕ :=
  (tiedKeys a b na nb).length

/-- `predict`: the turnover margin `m_to` — `b.turnovers - a.turnovers`
(positive favors A), unless both contexts supply an expected-turnovers
override. -/
def marginTO (a b : TeamKeys) (ca cb : TeamContext) : ℚ :=
  match ca.expected_turnovers_per_game, cb.expected_turnovers_per_game with
  | some ea, some eb => eb - ea
  | _, _ => (b.turnovers : ℚ) - (a.turnovers : ℚ)

/-- `predict`: the DGI margin — `(ctx_a.dgi - ctx_b.dgi) if (ctx_a.dgi or
ctx_b.dgi) else 0.0` (Python truthiness: nonzero floats are truthy). -/
def marginDGI (ca cb : TeamContext) : ℚ :=
  if ca.dgi ≠ 0 ∨ cb.dgi ≠ 0 then ca.dgi - cb.dgi else 0

/-- `predict`: the `margin_table` dict, in insertion order. -/
def marginTable (a b : TeamKeys) (ca cb : TeamContext) : List (String × ℚ) :=
  [ ("TOP", a.top_min - b.top_min)
  , ("TO", marginTO a b ca cb)
  , ("BIG", (a.big_plays : ℚ) - (b.big_plays : ℚ))
  , ("3D", a.third_down_pct - b.third_down_pct)
  , ("RZ", a.redzone_td_pct - b.redzone_td_pct)
  , ("SOS_z", ca.sos_z - cb.sos_z)
  , ("DGI", marginDGI ca cb) ]

/-- `predict`: the per-component contribution dict
(`weight * (margin / divisor)`), before the rule bonus entry is added. -/
def contribTable (a b : TeamKeys) (ca cb : TeamContext) (w : Weights) (d : Divisors) :
    List (String × ℚ) :=
  [ ("TOP", w.key * ((a.top_min - b.top_min) / d.top))
  , ("TO", w.turnover * (marginTO a b ca cb / d.turnover))
  , ("BIG", w.key * (((a.big_plays : ℚ) - (b.big_plays : ℚ)) / d.big_play))
  , ("3D", w.key * ((a.third_down_pct - b.third_down_pct) / d.third_down))
  , ("RZ", w.key * ((a.redzone_td_pct - b.redzone_td_pct) / d.redzone))
  , ("SOS_z", w.sos * (ca.sos_z - cb.sos_z))
  , ("DGI", w.dgi * marginDGI ca cb) ]

/-- `predict`: `logit = sum(contrib.values())`. -/
def baseLogit (a b : TeamKeys) (ca cb : TeamContext) (w : Weights) (d : Divisors) : ℚ :=
  ((contribTable a b ca cb w d).map (fun p => p.2)).sum

/-- `predict`: the discrete rule contribution — `+rule_bonus` when team A won
at least 3 keys and team B fewer, `-rule_bonus` in the mirrored case, else 0. -/
def ruleContrib (keysA keysB : ℕ) (ruleBonus : ℚ) : ℚ :=
  if 3 ≤ keysA ∧ keysB < 3 then ruleBonus
  else if 3 ≤ keysB ∧ keysA < 3 then -ruleBonus
  else 0

/-- `predict`: `keys_winner` — `team_a_name` if `keys_a >= 3`, else
`team_b_name` if `keys_b >= 3`, else `None`. -/
def keysWinner (keysA keysB : ℕ) (na nb : String) : Option String :=
  if 3 ≤ keysA then some na else if 3 ≤ keysB then some nb else none

/-- `predict`: the consistency clamp.  The code computes
`p_a = sigmoid(logit)` and compares the keys winner against
`team_a if p_a >= 0.5 else team_b`; since `sigmoid` is strictly increasing
with `sigmoid 0 = 1/2` (formally: `half_le_sigmoid_iff`), the test
`p_a >= 0.5` is embedded as `0 ≤ logit`.  On disagreement the logit is forced
to `max(logit, 0.0)` (keys winner is A) or `min(logit, -0.01)` (keys winner
is B). -/
def clampLogit (kw : Option String) (na nb : String) (logit : ℚ) : ℚ :=
  match kw with
  | none => logit
  | some wn =>
      if wn = (if 0 ≤ logit then na else nb) then logit
      else if wn = na then max logit 0 else min logit (-(1/100))

/-- The final logit of `predict`: contributions, plus the discrete rule
bonus, then the consistency clamp. -/
def finalLogit (a b : TeamKeys) (na nb : String) (ca cb : TeamContext)
    (w : Weights) (d : Divisors) : ℚ :=
  clampLogit (keysWinner (keysWonA a b na nb) (keysWonB a b na nb) na nb) na nb
    (baseLogit a b ca cb w d
      + ruleContrib (keysWonA a b na nb) (keysWonB a b na nb) w.rule_bonus)

/-- `predict`: `predicted_winner = team_a_name if p_a >= 0.5 else
team_b_name`, with `p_a >= 0.5` embedded as `0 ≤ logit` (see `clampLogit`'s
doc comment and `half_le_sigmoid_iff`). -/
def predictedWinner (a b : TeamKeys) (na nb : String) (ca cb : TeamContext)
    (w : Weights) (d : Divisors) : String :=
  if 0 ≤ finalLogit a b na nb ca cb w d then na else nb

/-- `predict`: `p_a = sigmoid(logit)` after the clamp — team A's win
probability (the returned value is `round(p_a, 3)`, display-only). -/
noncomputable def pTeamA (a b : TeamKeys) (na nb : String) (ca cb : TeamContext)
    (w : Weights) (d : Divisors) : ℝ :=
  sigmoid ((finalLogit a b na nb ca cb w d : ℚ) : ℝ)

/-- `predict`: the returned `p_team_b_win` is `1 - p_a` (modulo display
rounding). -/
noncomputable def pTeamB (a b : TeamKeys) (na nb : String) (ca cb : TeamContext)
    (w : Weights) (d : Divisors) : ℝ :=
  1 - pTeamA a b na nb ca cb w d

/-! ## Time Parser: `utils/time.py::mmss_to_seconds`

The Python function takes a string, a float, or a missing value.  A missing
or NaN input is modelled as `none`; any other input is modelled by the string
`str(...)` produces for it.  Python's `int(...)` constructor (strip
whitespace, optional sign, decimal digits; numeric-separator underscores are
not modelled) is embedded as `pyIntParse`. -/

/-- ASCII whitespace, for Python's `str.strip()` / `int()` stripping
(Python also strips other Unicode whitespace; the data only ever contains
ASCII). -/
def isPySpace (c : Char) : Bool :=
  c = ' ' ∨ c = '\t' ∨ c = '\n' ∨ c = '\r' ∨ c = '\x0b' ∨ c = '\x0c'

/-- Python `str.strip()` on a character list: drop whitespace from both
ends. -/
def pyStrip (cs : List Char) : List Char :=
  ((cs.dropWhile isPySpace).reverse.dropWhile isPySpace).reverse

/-- Python `str.split(":")` (a one-character separator, no maxsplit):
`"".split(":") == [""]`, and every separator occurrence cuts. -/
def splitOnColon : List Char → List (List Char)
  | [] => [[]]
  | c :: cs =>
    if c = ':' then [] :: splitOnColon cs
    else
      match splitOnColon cs with
      | h :: t => (c :: h) :: t
      | [] => [[c]]

/-- Value of a list of decimal digit characters. -/
def digitsVal (cs : List Char) : ℕ :=
  cs.foldl (fun n c => 10 * n + (c.toNat - 48)) 0

/-- Parse a nonempty all-digit character list. -/
def parseDigits (cs : List Char) : Option ℤ :=
  if cs ≠ [] ∧ cs.all (fun c => c.isDigit) then some (digitsVal cs : ℤ) else none

/-- Python `int(s)`: surrounding whitespace stripped, an optional leading
sign, then decimal digits (numeric-separator underscores are not modelled);
`none` models a raised `ValueError`. -/
def pyIntParse (cs : List Char) : Option ℤ :=
  match pyStrip cs with
  | '+' :: rest => parseDigits rest
  | '-' :: rest => (parseDigits rest).map (fun n => -n)
  | t => parseDigits t

/-- `utils/time.py::mmss_to_seconds`: `"MM:SS"` to total seconds; `pd.isna`
input returns 0, a split with other than exactly two parts returns 0, an
`int()` failure returns 0. -/
def mmss_to_seconds (mmss : Option String) : ℤ :=
  match mmss with
  | none => 0
  | some s =>
    match splitOnColon (pyStrip s.toList) with
    | [m, sec] =>
      match pyIntParse m, pyIntParse sec with
      | some mv, some sv => mv * 60 + sv
      | _, _ => 0
    | _ => 0

/-! ## Keys Engine: `features/keys.py::compute_team_keys`

A play-by-play table is a list of rows plus two column-presence flags for the
optional columns whose *column-level* absence the code tests
(`"no_play" in tdf.columns`, `"first_down" in third.columns`).  All other
nullable cells are `Option` fields (`fillna` becomes `Option.getD`); for the
columns read through `tdf.get(col, ...)` (`interception`, `fumble_lost`,
`touchdown`), an absent column behaves identically to an all-`none` column
after `fillna(0)`, so no extra flag is needed. -/

/-- One row of a play-by-play table, restricted to the columns
`compute_team_keys` reads. -/
structure PlayRecord where
  game_id : Option String
  posteam : Option String
  drive : Option ℤ
  drive_time_of_possession : Option String
  interception : Option ℚ
  fumble_lost : Option ℚ
  play_type : Option String
  no_play : Option ℚ
  yards_gained : Option ℚ
  down : Option ℚ
  ydstogo : Option ℚ
  first_down : Option ℚ
  touchdown : Option ℚ
  yardline_100 : Option ℚ
deriving DecidableEq, Repr

/-- A play-by-play `DataFrame`: rows plus presence flags for the two
optional columns the code checks at column level. -/
structure PBPTable where
  rows : List PlayRecord
  hasNoPlayCol : Bool
  hasFirstDownCol : Bool
deriving DecidableEq, Repr

/-- `dropna(subset=["game_id", "drive"]).drop_duplicates(subset=["game_id",
"drive"])`: keep the first row of each (game, drive) pair, dropping rows
where either is missing.  `seen` accumulates the pairs already kept. -/
def firstPerDrive (seen : List (String × ℤ)) : List PlayRecord → List PlayRecord
  | [] => []
  | r :: rs =>
    match r.game_id, r.drive with
    | some g, some dr =>
      if (g, dr) ∈ seen then firstPerDrive seen rs
      else r :: firstPerDrive ((g, dr) :: seen) rs
    | _, _ => firstPerDrive seen rs

/-- `set(zip(df["game_id"], df["drive"]))` restricted to rows where both are
present (a pair containing NaN can never equal a fully-present pair, so
dropping such pairs does not change any intersection with present pairs). -/
def driveKeyList (l : List PlayRecord) : List (String × ℤ) :=
  l.filterMap (fun r =>
    match r.game_id, r.drive with
    | some g, some dr => some (g, dr)
    | _, _ => none)

/-- Default big-play thresholds of `features/keys.py`
(`BIG_PLAY_PASS_YARDS = 15`, `BIG_PLAY_RUSH_YARDS = 10`). -/
def bigPlayPassYards : ℚ := 15

/-- Default rush big-play threshold. -/
def bigPlayRushYards : ℚ := 10

/-- `features/keys.py::compute_team_keys`.  Parameters mirror the Python
keyword arguments (`big_play_pass_yards=15`, `big_play_rush_yards=10`,
`red_zone_yardline=20`, `third_down_number=3` by default). -/
def compute_team_keys (pbp : PBPTable) (team : String)
    (bigPassYds bigRushYds redZoneYardline thirdDownNum : ℚ) : TeamKeys :=
  let tdf := pbp.rows.filter (fun r => r.posteam = some team)
  if tdf = [] then emptyTeamKeys team
  else
    let driveRows := firstPerDrive [] tdf
    let topSeconds : ℤ := (driveRows.map (fun r => mmss_to_seconds r.drive_time_of_possession)).sum
    let top_min : ℚ := (topSeconds : ℚ) / 60
    let ints : ℤ := intTrunc ((tdf.map (fun r => r.interception.getD 0)).sum)
    let fumLost : ℤ := intTrunc ((tdf.map (fun r => r.fumble_lost.getD 0)).sum)
    let turnovers : ℤ := ints + fumLost
    let anyNoPlayType := tdf.any (fun r => r.play_type = some "no_play")
    let playTypeOk : PlayRecord → Bool := fun r =>
      (decide (r.play_type = some "pass") || decide (r.play_type = some "run")) &&
      (if pbp.hasNoPlayCol then decide (r.no_play.getD 0 ≠ 1)
       else if anyNoPlayType then decide (r.play_type ≠ some "no_play")
       else true)
    let bigPlayMask : PlayRecord → Bool := fun r =>
      playTypeOk r &&
      ((decide (r.play_type = some "pass") && decide (bigPassYds ≤ r.yards_gained.getD 0)) ||
       (decide (r.play_type = some "run") && decide (bigRushYds ≤ r.yards_gained.getD 0)))
    let big_plays : ℤ := (tdf.countP bigPlayMask : ℤ)
    let third := tdf.filter (fun r =>
      decide (r.down = some thirdDownNum) &&
      (decide (r.play_type = some "pass") || decide (r.play_type = some "run")))
    let thirdAttempts := third.length
    let thirdConverted : ℕ :=
      if thirdAttempts = 0 then 0
      else if pbp.hasFirstDownCol then
        third.countP (fun r =>
          decide (r.first_down.getD 0 = 1) || decide (r.touchdown.getD 0 = 1))
      else
        third.countP (fun r =>
          decide (r.ydstogo.getD 999 ≤ r.yards_gained.getD 0) || decide (r.touchdown.getD 0 = 1))
    let third_down_pct := 100 * safe_div (thirdConverted : ℚ) (thirdAttempts : ℚ)
    let rzPlays := tdf.filter (fun r => decide (r.yardline_100.getD 999 ≤ redZoneYardline))
    let rzDrives := firstPerDrive [] rzPlays
    let rzTrips := rzDrives.length
    let tdDriveIds := driveKeyList (tdf.filter (fun r => decide (r.touchdown.getD 0 = 1)))
    let rzTdDrives : ℕ :=
      if rzTrips = 0 then 0
      else rzDrives.countP (fun r =>
        match r.game_id, r.drive with
        | some g, some dr => decide ((g, dr) ∈ tdDriveIds)
        | _, _ => false)
    let redzone_td_pct :=
      if rzTrips = 0 then 0 else 100 * safe_div (rzTdDrives : ℚ) (rzTrips : ℚ)
    { team := team
      top_min := round2 top_min
      turnovers := turnovers
      big_plays := big_plays
      third_down_pct := round2 third_down_pct
      redzone_td_pct := round2 redzone_td_pct
      third_down_attempts := (thirdAttempts : ℤ)
      third_down_converted := (thirdConverted : ℤ)
      redzone_trips := (rzTrips : ℤ)
      redzone_td_drives := (rzTdDrives : ℤ) }

/-- `features/keys.py::aggregate_keys`: sum `top_min`, `turnovers`,
`big_plays` and the four denominators; recompute both rates from the summed
denominators.  `t = team or keys_list[0].team` (empty string is falsy). -/
def aggregate_keys (keysList : List TeamKeys) (team : String) : TeamKeys :=
  match keysList with
  | [] => emptyTeamKeys team
  | k0 :: _ =>
    let t := if team = "" then k0.team else team
    let top_min : ℚ := (keysList.map (fun k => k.top_min)).sum
    let turnovers : ℤ := (keysList.map (fun k => k.turnovers)).sum
    let big_plays : ℤ := (keysList.map (fun k => k.big_plays)).sum
    let thirdAttempts : ℤ := (keysList.map (fun k => k.third_down_attempts)).sum
    let thirdConverted : ℤ := (keysList.map (fun k => k.third_down_converted)).sum
    let rzTrips : ℤ := (keysList.map (fun k => k.redzone_trips)).sum
    let rzTdDrives : ℤ := (keysList.map (fun k => k.redzone_td_drives)).sum
    let third_down_pct : ℚ := 100 * safe_div (thirdConverted : ℚ) (thirdAttempts : ℚ)
    let redzone_td_pct : ℚ := 100 * safe_div (rzTdDrives : ℚ) (rzTrips : ℚ)
    { team := t
      top_min := round2 top_min
      turnovers := turnovers
      big_plays := big_plays
      third_down_pct := round2 third_down_pct
      redzone_td_pct := round2 redzone_td_pct
      third_down_attempts := thirdAttempts
      third_down_converted := thirdConverted
      redzone_trips := rzTrips
      redzone_td_drives := rzTdDrives }

/-! ## Weighted Aggregator: `features/aggregate_weighted.py` -/

/-- One row of the per-game keys table consumed by
`aggregate_weighted_keys` (the columns it reads). -/
structure TeamGameRow where
  team : String
  top_min : ℚ
  turnovers : ℚ
  big_plays : ℚ
  third_down_attempts : ℚ
  third_down_converted : ℚ
  redzone_trips : ℚ
  redzone_td_drives : ℚ
deriving DecidableEq, Repr

/-- `features/aggregate_weighted.py::aggregate_weighted_keys`.  The weights
series is aligned positionally (`weights.reindex(df.index).fillna(1.0)`:
a missing weight becomes 1.0); `total_w = w.sum()` is replaced by `1.0` when
it is zero; count-like metrics are weighted means, the two rates come from
weighted sums of the denominators; `int(round(x, 0))` / `round(x, 2)` are
`roundHalfEven` / `round2`. -/
def aggregate_weighted_keys (rows : List TeamGameRow) (weights : List ℚ) : TeamKeys :=
  match rows with
  | [] => emptyTeamKeys ""
  | r0 :: _ =>
    let wlist : List (ℚ × TeamGameRow) :=
      rows.enum.map (fun p => (weights.getD p.1 1, p.2))
    let totalW0 := (wlist.map (fun p => p.1)).sum
    let totalW := if totalW0 = 0 then 1 else totalW0
    let top_min := (wlist.map (fun p => p.1 * p.2.top_min)).sum / totalW
    let turnovers := (wlist.map (fun p => p.1 * p.2.turnovers)).sum / totalW
    let big_plays := (wlist.map (fun p => p.1 * p.2.big_plays)).sum / totalW
    let thirdAttW := (wlist.map (fun p => p.1 * p.2.third_down_attempts)).sum
    let thirdConvW := (wlist.map (fun p => p.1 * p.2.third_down_converted)).sum
    let rzTripsW := (wlist.map (fun p => p.1 * p.2.redzone_trips)).sum
    let rzTdW := (wlist.map (fun p => p.1 * p.2.redzone_td_drives)).sum
    let third_down_pct := 100 * safe_div thirdConvW thirdAttW
    let redzone_td_pct := 100 * safe_div rzTdW rzTripsW
    { team := r0.team
      top_min := round2 top_min
      turnovers := roundHalfEven turnovers
      big_plays := roundHalfEven big_plays
      third_down_pct := round2 third_down_pct
      redzone_td_pct := round2 redzone_td_pct
      third_down_attempts := roundHalfEven thirdAttW
      third_down_converted := roundHalfEven thirdConvW
      redzone_trips := roundHalfEven rzTripsW
      redzone_td_drives := roundHalfEven rzTdW }

/-! ## SOS z-scoring: `features/sos.py::zscore_sos` -/

/-- Sample mean of a list of reals (`sum(vals) / n`). -/
noncomputable def sampleMean (l : List ℝ) : ℝ :=
  l.sum / l.length

/-- Sample variance with the `n - 1` denominator
(`sum((x - mean)**2 for x in vals) / (n - 1)`). -/
noncomputable def sampleVar (l : List ℝ) : ℝ :=
  (l.map (fun x => (x - sampleMean l)^2)).sum / ((l.length : ℝ) - 1)

/-- `features/sos.py::zscore_sos`.  A Python dict (unique keys, insertion
order) is modelled as a list of pairs; `variance ** 0.5` is `Real.sqrt`
(the variance is nonnegative). -/
noncomputable def zscore_sos (l : List (String × ℚ)) : List (String × ℝ) :=
  match l with
  | [] => []
  | _ =>
    let vals : List ℝ := l.map (fun p => ((p.2 : ℚ) : ℝ))
    let n := l.length
    if n < 2 then l.map (fun p => (p.1, (0 : ℝ)))
    else
      let mean : ℝ := vals.sum / n
      let variance := (vals.map (fun x => (x - mean)^2)).sum / ((n : ℝ) - 1)
      let std := Real.sqrt variance
      if std = 0 then l.map (fun p => (p.1, (0 : ℝ)))
      else l.map (fun p => (p.1, (((p.2 : ℚ) : ℝ) - mean) / std))

/-! ## Rank/Percentile: `analysis/rank_keys.py::_percentile_rank` -/

/-- `analysis/rank_keys.py::_percentile_rank` (the leading underscore is
dropped).  Empty population: 50.0.  For `lower_is_better`,
`count_better = sum(1 for v in values if v > value)` and the result is
`100 * (n - count_better) / n`; otherwise
`count_worse_or_eq = sum(1 for v in values if v <= value)` and the result is
`100 * count_worse_or_eq / n`. -/
def percentile_rank (value : ℚ) (values : List ℚ) (lowerIsBetter : Bool) : ℚ :=
  if values = [] then 50
  else
    let n := values.length
    if lowerIsBetter then
      let countBetter := values.countP (fun v => value < v)
      100 * ((n : ℚ) - (countBetter : ℚ)) / (n : ℚ)
    else
      let countWorseOrEq := values.countP (fun v => v ≤ value)
      100 * (countWorseOrEq : ℚ) / (n : ℚ)

/-- Modelled from the spec and the function's own docstring (`">=" for TO`):
the documented percentile for a lower-is-better key is the percentage of the
population whose value is greater than or equal to the team's value. -/
def percentileDocLower (value : ℚ) (values : List ℚ) : ℚ :=
  if values = [] then 50
  else 100 * ((values.countP (fun v => value ≤ v) : ℚ)) / (values.length : ℚ)

/-! ## Concrete example inputs used by witnesses and counterexamples -/

/-- Example keys: team "A" of the regression test
`test_team_a_wins_3_keys_never_loses_to_margins`. -/
def exKeysA : TeamKeys :=
  { team := "A", top_min := 31, turnovers := 0, big_plays := 4,
    third_down_pct := 35, redzone_td_pct := 35,
    third_down_attempts := 0, third_down_converted := 0,
    redzone_trips := 0, redzone_td_drives := 0 }

/-- Example keys: team "B" of the same regression test (huge margins on the
two keys it wins). -/
def exKeysB : TeamKeys :=
  { team := "B", top_min := 29, turnovers := 2, big_plays := 3,
    third_down_pct := 65, redzone_td_pct := 70,
    third_down_attempts := 0, third_down_converted := 0,
    redzone_trips := 0, redzone_td_drives := 0 }

/-- Degenerate-naming example: first team, winning TOP, TO and BIG. -/
def exDegA : TeamKeys :=
  { team := "N", top_min := 1, turnovers := 0, big_plays := 1,
    third_down_pct := 0, redzone_td_pct := 0,
    third_down_attempts := 0, third_down_converted := 0,
    redzone_trips := 0, redzone_td_drives := 0 }

/-- Degenerate-naming example: second team, winning 3D and RZ by 100 points
each, so the raw logit favors it heavily. -/
def exDegB : TeamKeys :=
  { team := "N", top_min := 0, turnovers := 1, big_plays := 0,
    third_down_pct := 100, redzone_td_pct := 100,
    third_down_attempts := 0, third_down_converted := 0,
    redzone_trips := 0, redzone_td_drives := 0 }

/-- A `TeamKeys` whose third-down rate 100/3 is not representable in two
decimal places. -/
def exThirds : TeamKeys :=
  { team := "T", top_min := 0, turnovers := 0, big_plays := 0,
    third_down_pct := 0, redzone_td_pct := 0,
    third_down_attempts := 3, third_down_converted := 1,
    redzone_trips := 0, redzone_td_drives := 0 }

/-- A one-game row with 30 minutes of possession, for the zero-weight
fallback counterexample. -/
def exGameRow : TeamGameRow :=
  { team := "SEA", top_min := 30, turnovers := 1, big_plays := 3,
    third_down_attempts := 10, third_down_converted := 4,
    redzone_trips := 2, redzone_td_drives := 1 }

/-- All-zero keys labelled "X". -/
def exTeamX : TeamKeys := emptyTeamKeys "X"

/-- All-zero keys labelled "Y". -/
def exTeamY : TeamKeys := emptyTeamKeys "Y"

/-! ## Theorems

Supporting lemmas first, then one theorem per claim (with witnesses and
counterexamples where required). -/

theorem one_add_exp_pos (x : ℝ) : 0 < 1 + Real.exp (-x) := by
  have h := Real.exp_pos (-x); linarith

theorem half_le_sigmoid_iff (x : ℝ) : 1/2 ≤ sigmoid x ↔ 0 ≤ x := by
  unfold sigmoid
  rw [div_le_div_iff (by norm_num) (one_add_exp_pos x)]
  constructor
  · intro h
    have hexp : Real.exp (-x) ≤ 1 := by linarith
    have hx : -x ≤ 0 := Real.exp_le_one_iff.mp hexp
    linarith
  · intro h
    have hexp : Real.exp (-x) ≤ 1 := by
      rw [Real.exp_le_one_iff]; linarith
    linarith

theorem sigmoid_lt_half_iff (x : ℝ) : sigmoid x < 1/2 ↔ x < 0 := by
  rw [← not_le, ← not_le, not_iff_not]
  exact half_le_sigmoid_iff x

theorem compare_values_winner_eq (a b : ℚ) (ta tb : String) (hib : Bool) (eps : ℚ) :
    (compare_values a b ta tb hib eps).winner
      = outcomeLabel ta tb (rawOutcome hib a b eps) := by
  simp only [compare_values, rawOutcome]
  split_ifs <;> rfl

theorem compare_values_margin_eq (a b : ℚ) (ta tb : String) (hib : Bool) (eps : ℚ) :
    (compare_values a b ta tb hib eps).margin = a - b := by
  simp only [compare_values]
  split_ifs <;> rfl

theorem compare_5keys_winners_eq (a b : TeamKeys) (ta tb : String) :
    (compare_5keys a b ta tb defaultEps).map (fun p => p.2.winner)
      = (fiveOutcomes a b).map (outcomeLabel ta tb) := by
  simp [compare_5keys, fiveOutcomes, compare_values_winner_eq]

theorem outcome_counts_sum (l : List KeyOutcome) :
    l.countP (fun o => o = KeyOutcome.awin) + l.countP (fun o => o = KeyOutcome.bwin)
      + l.countP (fun o => o = KeyOutcome.tie) = l.length := by
  induction l with
  | nil => rfl
  | cons h t ih =>
    cases h <;> simp [List.countP_cons, ← ih] <;> omega

theorem wins_ties_sum (a b : TeamKeys) :
    winsA a b + winsB a b + tiesCount a b = 5 := by
  have h := outcome_counts_sum (fiveOutcomes a b)
  simpa [winsA, winsB, tiesCount, fiveOutcomes] using h

theorem countP_label_fst (l : List KeyOutcome) (na nb : String) (h : na ≠ nb) :
    (l.map (outcomeLabel na nb)).countP (fun w => w = na)
      = l.countP (fun o => o = KeyOutcome.awin)
        + (if na = "TIE" then l.countP (fun o => o = KeyOutcome.tie) else 0) := by
  induction l with
  | nil => simp
  | cons hd t ih =>
    cases hd <;>
      simp only [List.map_cons, List.countP_cons, outcomeLabel, ih] <;>
      split_ifs <;> simp_all <;> omega

theorem countP_label_snd (l : List KeyOutcome) (na nb : String) (h : na ≠ nb) :
    (l.map (outcomeLabel na nb)).countP (fun w => w = nb)
      = l.countP (fun o => o = KeyOutcome.bwin)
        + (if nb = "TIE" then l.countP (fun o => o = KeyOutcome.tie) else 0) := by
  induction l with
  | nil => simp
  | cons hd t ih =>
    cases hd <;>
      simp only [List.map_cons, List.countP_cons, outcomeLabel, ih] <;>
      split_ifs <;> simp_all <;> omega

theorem countP_label_tie (l : List KeyOutcome) (na nb : String)
    (ha : na ≠ "TIE") (hb : nb ≠ "TIE") :
    (l.map (outcomeLabel na nb)).countP (fun w => w = "TIE")
      = l.countP (fun o => o = KeyOutcome.tie) := by
  induction l with
  | nil => simp
  | cons hd t ih =>
    cases hd <;> simp_all [List.countP_cons, outcomeLabel]

theorem keyWinners_values (a b : TeamKeys) (na nb : String) :
    (keyWinners a b na nb).map (fun p => p.2)
      = (fiveOutcomes a b).map (outcomeLabel na nb) := by
  simp [keyWinners, compare_5keys, fiveOutcomes, compare_values_winner_eq]

theorem keysWonA_eq (a b : TeamKeys) (na nb : String) (h : na ≠ nb) :
    keysWonA a b na nb
      = winsA a b + (if na = "TIE" then tiesCount a b else 0) := by
  unfold keysWonA winsA tiesCount
  rw [show ((keyWinners a b na nb).map (fun p => p.2)).countP (fun w => w = na)
        = ((fiveOutcomes a b).map (outcomeLabel na nb)).countP (fun w => w = na) by
      rw [keyWinners_values]]
  exact countP_label_fst (fiveOutcomes a b) na nb h

theorem keysWonB_eq (a b : TeamKeys) (na nb : String) (h : na ≠ nb) :
    keysWonB a b na nb
      = winsB a b + (if nb = "TIE" then tiesCount a b else 0) := by
  unfold keysWonB winsB tiesCount
  rw [show ((keyWinners a b na nb).map (fun p => p.2)).countP (fun w => w = nb)
        = ((fiveOutcomes a b).map (outcomeLabel na nb)).countP (fun w => w = nb) by
      rw [keyWinners_values]]
  exact countP_label_snd (fiveOutcomes a b) na nb h

theorem tiesWon_eq (a b : TeamKeys) (na nb : String)
    (ha : na ≠ "TIE") (hb : nb ≠ "TIE") :
    tiesWon a b na nb = tiesCount a b := by
  unfold tiesWon tiedKeys tiesCount
  rw [List.length_map, ← List.countP_eq_length_filter]
  have hmap := keyWinners_values a b na nb
  have h1 : ((keyWinners a b na nb).map (fun p => p.2)).countP (fun w => w = "TIE")
      = ((fiveOutcomes a b).map (outcomeLabel na nb)).countP (fun w => w = "TIE") := by
    rw [hmap]
  rw [List.countP_map] at h1
  rw [show (fun (p : String × String) => decide (p.2 = "TIE"))
        = ((fun w => decide (w = "TIE")) ∘ (fun p => p.2)) from rfl]
  rw [h1]
  exact countP_label_tie (fiveOutcomes a b) na nb ha hb

/-- Claim C1 (amended): for distinct team display names, if one team wins at
least 3 of the 5 keys outright (ties never counting) and the other wins
fewer than 3, then `predict` names that team as `predicted_winner` and
assigns it a win probability of at least 0.5, for every pair of `TeamKeys`,
every context, and every weight/divisor configuration. -/
theorem predict_majority_keys_override
    (a b : TeamKeys) (na nb : String) (ca cb : TeamContext)
    (w : Weights) (d : Divisors) (hn : na ≠ nb) :
    (3 ≤ winsA a b ∧ winsB a b < 3 →
      predictedWinner a b na nb ca cb w d = na
        ∧ 1/2 ≤ pTeamA a b na nb ca cb w d) ∧
    (3 ≤ winsB a b ∧ winsA a b < 3 →
      predictedWinner a b na nb ca cb w d = nb
        ∧ 1/2 ≤ pTeamB a b na nb ca cb w d) := by
  have hsum := wins_ties_sum a b
  have hA := keysWonA_eq a b na nb hn
  have hB := keysWonB_eq a b na nb hn
  constructor
  · rintro ⟨h3, hb3⟩
    have hkA : 3 ≤ keysWonA a b na nb := by rw [hA]; split_ifs <;> omega
    have hkB : keysWonB a b na nb < 3 := by rw [hB]; split_ifs <;> omega
    have hkw : keysWinner (keysWonA a b na nb) (keysWonB a b na nb) na nb = some na := by
      unfold keysWinner; rw [if_pos hkA]
    have hfl : 0 ≤ finalLogit a b na nb ca cb w d := by
      simp only [finalLogit, hkw, clampLogit]
      split_ifs <;>
        first
          | assumption
          | exact le_max_right _ _
    refine ⟨?_, ?_⟩
    · unfold predictedWinner
      rw [if_pos hfl]
    · unfold pTeamA
      rw [half_le_sigmoid_iff]
      exact_mod_cast hfl
  · rintro ⟨h3, ha3⟩
    have hkA : keysWonA a b na nb < 3 := by rw [hA]; split_ifs <;> omega
    have hkB : 3 ≤ keysWonB a b na nb := by rw [hB]; split_ifs <;> omega
    have hkw : keysWinner (keysWonA a b na nb) (keysWonB a b na nb) na nb = some nb := by
      unfold keysWinner
      rw [if_neg (by omega : ¬ 3 ≤ keysWonA a b na nb), if_pos hkB]
    have hfl : finalLogit a b na nb ca cb w d < 0 := by
      simp only [finalLogit, hkw, clampLogit]
      split_ifs with h1 h2 h3' h4
      · exact absurd h2.symm hn
      · exact lt_of_le_of_lt (min_le_right _ _) (by norm_num)
      · exact not_le.mp h1
      · exact absurd h4.symm hn
      · exact lt_of_le_of_lt (min_le_right _ _) (by norm_num)
    refine ⟨?_, ?_⟩
    · unfold predictedWinner
      rw [if_neg (not_le.mpr hfl)]
    · unfold pTeamB pTeamA
      have hs : sigmoid ((finalLogit a b na nb ca cb w d : ℚ) : ℝ) < 1/2 :=
        (sigmoid_lt_half_iff _).mpr (by exact_mod_cast hfl)
      linarith

/-- Witness for the amended Claim C1, at the inputs of the repository's own
regression test `test_team_a_wins_3_keys_never_loses_to_margins`: team "A"
wins exactly TOP, TO and BIG, team "B" wins 3D and RZ with large margins, and
"A" is predicted with probability at least 0.5. -/
theorem predict_majority_keys_override_witness :
    ("A" : String) ≠ "B"
      ∧ 3 ≤ winsA exKeysA exKeysB ∧ winsB exKeysA exKeysB < 3
      ∧ predictedWinner exKeysA exKeysB "A" "B" defaultContext defaultContext
          defaultWeights defaultDivisors = "A"
      ∧ 1/2 ≤ pTeamA exKeysA exKeysB "A" "B" defaultContext defaultContext
          defaultWeights defaultDivisors := by
  have hn : ("A" : String) ≠ "B" := by decide
  have hwA : winsA exKeysA exKeysB = 3 := by
    norm_num [winsA, fiveOutcomes, rawOutcome, exKeysA, exKeysB, defaultEps,
      List.countP, List.countP.go]
    decide
  have hwB : winsB exKeysA exKeysB = 2 := by
    norm_num [winsB, fiveOutcomes, rawOutcome, exKeysA, exKeysB, defaultEps,
      List.countP, List.countP.go]
    decide
  have h := (predict_majority_keys_override exKeysA exKeysB "A" "B"
      defaultContext defaultContext defaultWeights defaultDivisors hn).1
    ⟨by rw [hwA], by rw [hwB]; norm_num⟩
  exact ⟨hn, by rw [hwA], by rw [hwB]; norm_num, h.1, h.2⟩

/-- Claim C1 counterexample, as stated (quantifying over *every* team
naming): give both teams the display name "N".  The first team wins 3 of the
5 keys outright and the second only 2, yet `predict` assigns the first team
(the `p_team_a_win` slot) a win probability below 0.5 — the name-based
bookkeeping counts every non-tied key for both `keys_won` entries, so the
rule bonus and the consistency clamp never fire, and the heavy margins on the
two keys the second team wins dominate the logit. -/
theorem predict_majority_equal_names_counterexample :
    3 ≤ winsA exDegA exDegB ∧ winsB exDegA exDegB < 3
      ∧ pTeamA exDegA exDegB "N" "N" defaultContext defaultContext
          defaultWeights defaultDivisors < 1/2 := by
  refine ⟨?_, ?_, ?_⟩
  · norm_num [winsA, fiveOutcomes, rawOutcome, exDegA, exDegB, defaultEps,
      List.countP, List.countP.go]
    decide
  · norm_num [winsB, fiveOutcomes, rawOutcome, exDegA, exDegB, defaultEps,
      List.countP, List.countP.go]
    decide
  · have hL : finalLogit exDegA exDegB "N" "N" defaultContext defaultContext
        defaultWeights defaultDivisors < 0 := by
      norm_num [finalLogit, clampLogit, keysWinner, keysWonA, keysWonB, keyWinners,
        compare_5keys, compare_values, baseLogit, contribTable, marginTO, marginDGI,
        ruleContrib, defaultWeights, defaultDivisors, defaultContext, exDegA, exDegB,
        defaultEps, List.countP, List.countP.go]
    unfold pTeamA
    rw [sigmoid_lt_half_iff]
    exact_mod_cast hL

/-- Claim C2: for every pair of `TeamKeys`, every naming, every context and
every weight/divisor configuration, the two win probabilities `predict`
returns sum to 1 (exactly, by construction — the code's final
`round(..., 3)` display rounding is not modelled), and `predicted_winner` is
a team whose returned probability is at least 0.5. -/
theorem predict_probabilities_sum_and_winner
    (a b : TeamKeys) (na nb : String) (ca cb : TeamContext)
    (w : Weights) (d : Divisors) :
    pTeamA a b na nb ca cb w d + pTeamB a b na nb ca cb w d = 1
      ∧ ((predictedWinner a b na nb ca cb w d = na
            ∧ 1/2 ≤ pTeamA a b na nb ca cb w d)
         ∨ (predictedWinner a b na nb ca cb w d = nb
            ∧ 1/2 ≤ pTeamB a b na nb ca cb w d)) := by
  constructor
  · unfold pTeamB
    ring
  · by_cases h : 0 ≤ finalLogit a b na nb ca cb w d
    · left
      refine ⟨by unfold predictedWinner; rw [if_pos h], ?_⟩
      unfold pTeamA
      rw [half_le_sigmoid_iff]
      exact_mod_cast h
    · right
      refine ⟨by unfold predictedWinner; rw [if_neg h], ?_⟩
      unfold pTeamB pTeamA
      have hs : sigmoid ((finalLogit a b na nb ca cb w d : ℚ) : ℝ) < 1/2 :=
        (sigmoid_lt_half_iff _).mpr (by exact_mod_cast not_le.mp h)
      linarith

/-- Claim C3 (amended): the engine's `keys_won[A] + keys_won[B] + ties == 5`
invariant holds whenever the two team display names are distinct and neither
is the literal sentinel string `"TIE"`; the counts are computed by matching
winner label strings, so degenerate namings double-count. -/
theorem keys_won_ties_total_five
    (a b : TeamKeys) (na nb : String)
    (hn : na ≠ nb) (ha : na ≠ "TIE") (hb : nb ≠ "TIE") :
    keysWonA a b na nb + keysWonB a b na nb + tiesWon a b na nb = 5 := by
  rw [keysWonA_eq a b na nb hn, keysWonB_eq a b na nb hn, tiesWon_eq a b na nb ha hb]
  rw [if_neg ha, if_neg hb]
  have := wins_ties_sum a b
  omega

/-- Witness for the amended Claim C3 at the regression-test inputs. -/
theorem keys_won_ties_total_five_witness :
    keysWonA exKeysA exKeysB "A" "B" + keysWonB exKeysA exKeysB "A" "B"
      + tiesWon exKeysA exKeysB "A" "B" = 5 :=
  keys_won_ties_total_five exKeysA exKeysB "A" "B" (by decide) (by decide) (by decide)

/-- Claim C3 counterexample, as stated (for every comparison the engine
runs): when both teams are given the same display name "N", every non-tied
key's winner label matches both names, so `keys_won` double-counts and the
invariant total is 10, not 5. -/
theorem keys_won_equal_names_counterexample :
    keysWonA exDegA exDegB "N" "N" + keysWonB exDegA exDegB "N" "N"
      + tiesWon exDegA exDegB "N" "N" ≠ 5 := by
  norm_num [keysWonA, keysWonB, tiesWon, tiedKeys, keyWinners, compare_5keys,
    compare_values, exDegA, exDegB, defaultEps, List.countP, List.countP.go,
    List.filter]
  decide

/-- Claim C4 (amended): every `TeamKeys` produced by `compute_team_keys` or
`aggregate_keys` satisfies
`third_down_pct = round(100 * third_down_converted / third_down_attempts, 2)`
(with half-even rounding to two decimals, and 0 when attempts is 0), and the
same for `redzone_td_pct`; aggregation sums the four count fields and
recomputes the rates from the sums — percentages are never averaged.  (The
original claim omitted the two-decimal rounding the code applies.) -/
theorem teamkeys_pct_invariant :
    (∀ (pbp : PBPTable) (team : String) (bp br rz td : ℚ),
       (compute_team_keys pbp team bp br rz td).third_down_pct
         = round2 (100 * safe_div
             ((compute_team_keys pbp team bp br rz td).third_down_converted : ℚ)
             ((compute_team_keys pbp team bp br rz td).third_down_attempts : ℚ))
       ∧ (compute_team_keys pbp team bp br rz td).redzone_td_pct
         = round2 (100 * safe_div
             ((compute_team_keys pbp team bp br rz td).redzone_td_drives : ℚ)
             ((compute_team_keys pbp team bp br rz td).redzone_trips : ℚ)))
    ∧ (∀ (l : List TeamKeys) (t : String),
       (aggregate_keys l t).third_down_pct
         = round2 (100 * safe_div ((aggregate_keys l t).third_down_converted : ℚ)
             ((aggregate_keys l t).third_down_attempts : ℚ))
       ∧ (aggregate_keys l t).redzone_td_pct
         = round2 (100 * safe_div ((aggregate_keys l t).redzone_td_drives : ℚ)
             ((aggregate_keys l t).redzone_trips : ℚ))
       ∧ (aggregate_keys l t).third_down_attempts
         = (l.map (fun k => k.third_down_attempts)).sum
       ∧ (aggregate_keys l t).third_down_converted
         = (l.map (fun k => k.third_down_converted)).sum
       ∧ (aggregate_keys l t).redzone_trips
         = (l.map (fun k => k.redzone_trips)).sum
       ∧ (aggregate_keys l t).redzone_td_drives
         = (l.map (fun k => k.redzone_td_drives)).sum) := by
  constructor
  · intro pbp team bp br rz td
    constructor
    · simp only [compute_team_keys]
      split_ifs <;> simp [emptyTeamKeys, round2, roundHalfEven, safe_div]
    · simp only [compute_team_keys]
      split_ifs <;> simp [emptyTeamKeys, round2, roundHalfEven, safe_div]
  · intro l t
    match l with
    | [] =>
      refine ⟨?_, ?_, ?_, ?_, ?_, ?_⟩ <;>
        simp [aggregate_keys, emptyTeamKeys, round2, roundHalfEven, safe_div]
    | k0 :: rest =>
      refine ⟨?_, ?_, ?_, ?_, ?_, ?_⟩ <;>
        simp [aggregate_keys, emptyTeamKeys, round2, roundHalfEven, safe_div]

/-- Claim C4 counterexample, as stated: aggregating a single `TeamKeys` with
3 third-down attempts and 1 conversion stores `third_down_pct = 33.33`,
which differs from the exact `100 * 1 / 3`. -/
theorem aggregate_pct_rounding_counterexample :
    (aggregate_keys [exThirds] "T").third_down_pct
      ≠ 100 * safe_div ((aggregate_keys [exThirds] "T").third_down_converted : ℚ)
          ((aggregate_keys [exThirds] "T").third_down_attempts : ℚ) := by
  norm_num [aggregate_keys, exThirds, safe_div, round2, roundHalfEven]

/-- Claim C5 (amended): `compare_values` with a nonnegative epsilon returns
the `"TIE"` winner exactly on `|a - b| ≤ eps` provided neither team is
literally named `"TIE"`; otherwise the better side (higher value when
`higher_is_better`, lower otherwise) wins; the margin is always `a - b`;
swapping the operands negates the margin and, for non-tied results, swaps
the winner. -/
theorem compare_values_spec
    (a b eps : ℚ) (ta tb : String) (hib : Bool)
    (heps : 0 ≤ eps) (ha : ta ≠ "TIE") (hb : tb ≠ "TIE") :
    ((compare_values a b ta tb hib eps).winner = "TIE" ↔ abs (a - b) ≤ eps)
      ∧ (compare_values a b ta tb hib eps).margin = a - b
      ∧ (¬ abs (a - b) ≤ eps →
          (hib = true → (b < a → (compare_values a b ta tb hib eps).winner = ta)
            ∧ (a < b → (compare_values a b ta tb hib eps).winner = tb))
          ∧ (hib = false → (a < b → (compare_values a b ta tb hib eps).winner = ta)
            ∧ (b < a → (compare_values a b ta tb hib eps).winner = tb)))
      ∧ (compare_values b a ta tb hib eps).margin
          = -((compare_values a b ta tb hib eps).margin)
      ∧ (¬ abs (a - b) ≤ eps →
          ((compare_values a b ta tb hib eps).winner = ta →
            (compare_values b a ta tb hib eps).winner = tb)
          ∧ ((compare_values a b ta tb hib eps).winner = tb →
            (compare_values b a ta tb hib eps).winner = ta)) := by
  have hw : ∀ (x y : ℚ), (compare_values x y ta tb hib eps).winner
      = if abs (x - y) ≤ eps then "TIE"
        else if hib then (if y < x then ta else tb) else (if x < y then ta else tb) := by
    intro x y
    simp only [compare_values]
    split_ifs <;> rfl
  refine ⟨?_, compare_values_margin_eq a b ta tb hib eps, ?_, ?_, ?_⟩
  · rw [hw]
    split_ifs with h1 h2 h3 <;> simp_all
  · intro hne
    constructor
    · intro hh
      subst hh
      refine ⟨fun hlt => ?_, fun hlt => ?_⟩
      · rw [hw, if_neg hne]
        simp [hlt]
      · rw [hw, if_neg hne]
        simp [not_lt.mpr (le_of_lt hlt)]
    · intro hh
      subst hh
      refine ⟨fun hlt => ?_, fun hlt => ?_⟩
      · rw [hw, if_neg hne]
        simp [hlt]
      · rw [hw, if_neg hne]
        simp [not_lt.mpr (le_of_lt hlt)]
  · rw [compare_values_margin_eq, compare_values_margin_eq]
    ring
  · intro hne
    have hne' : ¬ abs (b - a) ≤ eps := by
      rw [abs_sub_comm]; exact hne
    have hab : a ≠ b := by
      intro h
      apply hne
      rw [h]
      simpa using heps
    constructor <;> intro hwin <;> rw [hw, if_neg hne'] <;>
      rw [hw, if_neg hne] at hwin <;>
      rcases lt_or_gt_of_ne hab with h | h <;> cases hib <;>
      simp_all [not_lt.mpr (le_of_lt h)]

/-- Witness for the amended Claim C5, at the eps-behavior inputs of the
repository's `test_eps_tie`: comparing 8.0001 against 8.0 with the default
epsilon is not a tie and has margin 0.0001. -/
theorem compare_values_spec_witness :
    (((compare_values (80001/10000) 8 "SEA" "NE" true defaultEps).winner = "TIE")
       ↔ abs ((80001/10000 : ℚ) - 8) ≤ defaultEps)
      ∧ (compare_values (80001/10000) 8 "SEA" "NE" true defaultEps).margin
          = (80001/10000 : ℚ) - 8 := by
  have h := compare_values_spec (80001/10000) 8 defaultEps "SEA" "NE" true
    (by norm_num [defaultEps]) (by decide) (by decide)
  exact ⟨h.1, h.2.1⟩

/-- Claim C5 counterexample, as stated (quantifying over every naming): a
team literally named `"TIE"` that wins the comparison makes the returned
winner label `"TIE"` even though `|a - b| > eps`. -/
theorem compare_values_tie_name_counterexample :
    (compare_values 5 0 "TIE" "NE" true defaultEps).winner = "TIE"
      ∧ ¬ abs ((5 : ℚ) - 0) ≤ defaultEps := by
  constructor
  · norm_num [compare_values, defaultEps]
  · norm_num [defaultEps]

/-- Claim C6 (code bug): for the lower-is-better direction (turnovers),
`_percentile_rank` returns the percentage of the population *at most* the
team's value — `100 * (n - #(v > value)) / n = 100 * #(v <= value) / n` —
not the documented percentage of the population *at least* the team's value.
At `value = 1` among `[1, 2, 3, 4]` the code yields 25.0 while the claim (and
the function's own docstring, `">=" for TO`) requires 100.0: the team with
the fewest turnovers is ranked in the bottom quartile instead of the top.
The higher-is-better direction and the empty-population neutral 50.0 match
the claim. -/
theorem percentile_rank_lower_direction_bug :
    percentile_rank 1 [1, 2, 3, 4] true = 25
      ∧ percentileDocLower 1 [1, 2, 3, 4] = 100
      ∧ percentile_rank 1 [1, 2, 3, 4] true ≠ percentileDocLower 1 [1, 2, 3, 4]
      ∧ (∀ (value : ℚ) (values : List ℚ),
          percentile_rank value values false
            = (if values = [] then 50
               else 100 * ((values.countP (fun v => v ≤ value) : ℚ)) / (values.length : ℚ)))
      ∧ (∀ (value : ℚ) (b : Bool), percentile_rank value [] b = 50) := by
  refine ⟨?_, ?_, ?_, ?_, ?_⟩
  · simp [percentile_rank, List.countP, List.countP.go]
    norm_num
  · simp [percentileDocLower, List.countP, List.countP.go]
  · simp [percentile_rank, percentileDocLower, List.countP, List.countP.go]
    norm_num
  · intro value values
    simp only [percentile_rank]
    split_ifs with h1 h2
    · rfl
    · exact h2.elim
    · rfl
  · intro value b
    simp [percentile_rank]

/-- Claim C7 (amended): `aggregate_weighted_keys` on a nonempty table with
positive total weight returns the weighted means — `top_minutes` rounded to
two decimals, `turnovers` and `big_plays` rounded half-even to the nearest
integer; when the total weight is 0 the code substitutes 1.0 for the divisor
(it does not fall back to the unweighted mean), so those metrics become the
rounded weighted *sums* — 0 when every weight is 0; empty input yields the
all-zero `TeamKeys` with an empty team label. -/
theorem aggregate_weighted_keys_spec :
    (∀ weights : List ℚ, aggregate_weighted_keys [] weights = emptyTeamKeys "")
      ∧ (∀ (r0 : TeamGameRow) (rest : List TeamGameRow) (weights : List ℚ),
          (((r0 :: rest).enum.map (fun p => weights.getD p.1 1)).sum ≠ 0 →
            (aggregate_weighted_keys (r0 :: rest) weights).top_min
              = round2 ((((r0 :: rest).enum.map
                    (fun p => weights.getD p.1 1 * p.2.top_min)).sum)
                  / (((r0 :: rest).enum.map (fun p => weights.getD p.1 1)).sum))
            ∧ (aggregate_weighted_keys (r0 :: rest) weights).turnovers
              = roundHalfEven ((((r0 :: rest).enum.map
                    (fun p => weights.getD p.1 1 * p.2.turnovers)).sum)
                  / (((r0 :: rest).enum.map (fun p => weights.getD p.1 1)).sum))
            ∧ (aggregate_weighted_keys (r0 :: rest) weights).big_plays
              = roundHalfEven ((((r0 :: rest).enum.map
                    (fun p => weights.getD p.1 1 * p.2.big_plays)).sum)
                  / (((r0 :: rest).enum.map (fun p => weights.getD p.1 1)).sum)))
          ∧ (((r0 :: rest).enum.map (fun p => weights.getD p.1 1)).sum = 0 →
            (aggregate_weighted_keys (r0 :: rest) weights).top_min
              = round2 (((r0 :: rest).enum.map
                    (fun p => weights.getD p.1 1 * p.2.top_min)).sum)
            ∧ (aggregate_weighted_keys (r0 :: rest) weights).turnovers
              = roundHalfEven (((r0 :: rest).enum.map
                    (fun p => weights.getD p.1 1 * p.2.turnovers)).sum)
            ∧ (aggregate_weighted_keys (r0 :: rest) weights).big_plays
              = roundHalfEven (((r0 :: rest).enum.map
                    (fun p => weights.getD p.1 1 * p.2.big_plays)).sum))) := by
  constructor
  · intro weights
    rfl
  · intro r0 rest weights
    constructor
    · intro hW
      simp only [List.getD_eq_getElem?_getD] at hW
      refine ⟨?_, ?_, ?_⟩ <;>
        simp [aggregate_weighted_keys, List.map_map, Function.comp_def, hW]
    · intro hW
      simp only [List.getD_eq_getElem?_getD] at hW
      refine ⟨?_, ?_, ?_⟩ <;>
        simp [aggregate_weighted_keys, List.map_map, Function.comp_def, hW]

/-- Witness for the amended Claim C7: a single game with weight 1 — the
total weight is 1, and all three count-like metrics are the (rounded)
weighted means. -/
theorem aggregate_weighted_keys_spec_witness :
    (aggregate_weighted_keys [exGameRow] [1]).top_min
        = round2 ((([exGameRow].enum.map
              (fun p => [(1:ℚ)].getD p.1 1 * p.2.top_min)).sum)
            / (([exGameRow].enum.map (fun p => [(1:ℚ)].getD p.1 1)).sum))
      ∧ (aggregate_weighted_keys [exGameRow] [1]).turnovers
        = roundHalfEven ((([exGameRow].enum.map
              (fun p => [(1:ℚ)].getD p.1 1 * p.2.turnovers)).sum)
            / (([exGameRow].enum.map (fun p => [(1:ℚ)].getD p.1 1)).sum)) := by
  have h := ((aggregate_weighted_keys_spec.2 exGameRow [] [1]).1
    (by norm_num [List.enum, List.enumFrom]))
  exact ⟨h.1, h.2.1⟩

/-- Claim C7 counterexample, as stated: (i) one game with weight 0 — the
claimed fallback to the unweighted mean would give `top_minutes = 30.0`, but
the code divides the zero weighted sum by 1.0 and returns 0; (ii) two games
with turnovers 1 and 0 and equal weights 1 — the claimed weighted mean is
0.5, but the stored `turnovers` is the rounded integer 0. -/
theorem aggregate_weighted_keys_counterexample :
    ((aggregate_weighted_keys [exGameRow] [0]).top_min = 0
        ∧ exGameRow.top_min = 30)
      ∧ ((aggregate_weighted_keys
            [exGameRow, { exGameRow with turnovers := 0 }] [1, 1]).turnovers = 0
        ∧ ((1:ℚ) * exGameRow.turnovers + 1 * 0) / (1 + 1) = 1/2) := by
  refine ⟨⟨?_, rfl⟩, ?_, ?_⟩
  · norm_num [aggregate_weighted_keys, List.enum, List.enumFrom, round2, roundHalfEven]
  · norm_num [aggregate_weighted_keys, List.enum, List.enumFrom, round2, roundHalfEven,
      exGameRow]
  · norm_num [exGameRow]

/-- Claim C8 (amended): the time parser returns 0 for missing/NaN input, 0
for a string that does not split into exactly two parts on `":"`, 0 when
either half fails integer parsing, and `minutes*60 + seconds` for a parsed
`"MM:SS"`; the result is nonnegative whenever both parsed halves are
nonnegative — but Python's `int()` accepts signed halves, so the returned
integer is *not* never-negative in general (see the counterexample). -/
theorem mmss_to_seconds_spec :
    mmss_to_seconds none = 0
      ∧ mmss_to_seconds (some "5:30") = 330
      ∧ mmss_to_seconds (some "") = 0
      ∧ mmss_to_seconds (some "5") = 0
      ∧ mmss_to_seconds (some "5:30:00") = 0
      ∧ (∀ s : String, (splitOnColon (pyStrip s.toList)).length ≠ 2 →
          mmss_to_seconds (some s) = 0)
      ∧ (∀ (s : String) (h1 h2 : List Char),
          splitOnColon (pyStrip s.toList) = [h1, h2] →
          (pyIntParse h1 = none ∨ pyIntParse h2 = none) →
          mmss_to_seconds (some s) = 0)
      ∧ (∀ (s : String) (h1 h2 : List Char) (m k : ℤ),
          splitOnColon (pyStrip s.toList) = [h1, h2] →
          pyIntParse h1 = some m → pyIntParse h2 = some k →
          mmss_to_seconds (some s) = m * 60 + k
            ∧ (0 ≤ m → 0 ≤ k → 0 ≤ mmss_to_seconds (some s))) := by
  refine ⟨rfl, by decide, by decide, by decide, by decide, ?_, ?_, ?_⟩
  · intro s hlen
    simp only [mmss_to_seconds]
    split
    · rename_i m sec heq
      rw [heq] at hlen
      simp at hlen
    · rfl
  · intro s h1 h2 heq hfail
    simp only [mmss_to_seconds]
    split
    · rename_i mh sech heq'
      rw [heq] at heq'
      obtain ⟨e1, e2⟩ : h1 = mh ∧ h2 = sech := by
        injection heq' with a1 a2
        injection a2 with a3 a4
        exact ⟨a1, a3⟩
      subst e1
      subst e2
      rcases hfail with hf | hf
      · rw [hf]
      · rw [hf]
        cases hp : pyIntParse h1 <;> rfl
    · rfl
  · intro s h1 h2 m k heq hm hk
    have hval : mmss_to_seconds (some s) = m * 60 + k := by
      simp only [mmss_to_seconds]
      split
      · rename_i mh sech heq'
        rw [heq] at heq'
        obtain ⟨e1, e2⟩ : h1 = mh ∧ h2 = sech := by
          injection heq' with a1 a2
          injection a2 with a3 a4
          exact ⟨a1, a3⟩
        subst e1
        subst e2
        rw [hm, hk]
      · rename_i hne
        exact absurd heq (hne h1 h2)
    refine ⟨hval, fun hm0 hk0 => ?_⟩
    rw [hval]
    omega

/-- Witness for the amended Claim C8 at `"12:05"`: the halves parse as 12
and 5, the parser returns 725, and 725 is nonnegative. -/
theorem mmss_to_seconds_spec_witness :
    mmss_to_seconds (some "12:05") = 12 * 60 + 5
      ∧ 0 ≤ mmss_to_seconds (some "12:05") := by
  have h := mmss_to_seconds_spec.2.2.2.2.2.2.2 "12:05"
    ['1', '2'] ['0', '5'] 12 5 (by decide) (by decide) (by decide)
  exact ⟨h.1, h.2 (by decide) (by decide)⟩

/-- Claim C8 counterexample, as stated ("the returned integer is never
negative"): Python's `int("-5")` parses, so `"-5:30"` yields
`(-5)*60 + 30 = -270 < 0`. -/
theorem mmss_to_seconds_negative_counterexample :
    mmss_to_seconds (some "-5:30") = -270
      ∧ mmss_to_seconds (some "-5:30") < 0 := by
  constructor <;> decide

theorem list_sum_map_sub {α : Type} (l : List α) (f g : α → ℝ) :
    (l.map (fun x => f x - g x)).sum = (l.map f).sum - (l.map g).sum := by
  induction l with
  | nil => simp
  | cons h t ih =>
    simp only [List.map_cons, List.sum_cons, ih]
    ring

theorem list_sum_map_div {α : Type} (l : List α) (f : α → ℝ) (c : ℝ) :
    (l.map (fun x => f x / c)).sum = (l.map f).sum / c := by
  induction l with
  | nil => simp
  | cons h t ih =>
    simp only [List.map_cons, List.sum_cons, ih]
    ring

theorem list_sum_map_const {α : Type} (l : List α) (c : ℝ) :
    (l.map (fun _ => c)).sum = l.length * c := by
  induction l with
  | nil => simp
  | cons h t ih =>
    simp only [List.map_cons, List.sum_cons, ih, List.length_cons]
    push_cast
    ring

theorem sampleVar_nonneg (v : List ℝ) (h : 2 ≤ v.length) : 0 ≤ sampleVar v := by
  unfold sampleVar
  apply div_nonneg
  · apply List.sum_nonneg
    intro x hx
    obtain ⟨y, hy, rfl⟩ := List.mem_map.mp hx
    positivity
  · have h2 : (2:ℝ) ≤ (v.length : ℝ) := by exact_mod_cast h
    linarith

/-- Standardizing a real sample of size at least 2 with nonzero sample
variance yields sample mean 0 and sample variance 1. -/
theorem zscore_normalizes (v : List ℝ) (h2 : 2 ≤ v.length) (hv : sampleVar v ≠ 0) :
    sampleMean (v.map (fun x => (x - sampleMean v) / Real.sqrt (sampleVar v))) = 0
      ∧ sampleVar (v.map (fun x => (x - sampleMean v) / Real.sqrt (sampleVar v))) = 1 := by
  have hn : (2:ℝ) ≤ (v.length : ℝ) := by exact_mod_cast h2
  have hn0 : (v.length : ℝ) ≠ 0 := by linarith
  have hn1 : (v.length : ℝ) - 1 ≠ 0 := by linarith
  have hvpos : 0 < sampleVar v := lt_of_le_of_ne (sampleVar_nonneg v h2) (Ne.symm hv)
  have hs : Real.sqrt (sampleVar v) ≠ 0 := Real.sqrt_ne_zero'.mpr hvpos
  have hs2 : Real.sqrt (sampleVar v) ^ 2 = sampleVar v := Real.sq_sqrt (le_of_lt hvpos)
  set μ := sampleMean v with hmu
  set σ := Real.sqrt (sampleVar v) with hsigma
  have hsum : (v.map (fun x => x - μ)).sum = 0 := by
    rw [list_sum_map_sub v (fun x => x) (fun _ => μ), list_sum_map_const]
    simp only [List.map_id']
    rw [hmu]
    unfold sampleMean
    field_simp
  have hzsum : (v.map (fun x => (x - μ) / σ)).sum = 0 := by
    rw [list_sum_map_div v (fun x => x - μ) σ, hsum, zero_div]
  have hmean0 : sampleMean (v.map (fun x => (x - μ) / σ)) = 0 := by
    unfold sampleMean
    rw [hzsum, zero_div]
  refine ⟨hmean0, ?_⟩
  unfold sampleVar
  rw [hmean0]
  rw [List.length_map, List.map_map]
  have hcomp : ((fun z => (z - 0)^2) ∘ fun x => (x - μ) / σ)
      = fun x => ((x - μ)^2) / σ^2 := by
    funext x
    simp [div_pow]
  rw [hcomp, list_sum_map_div v (fun x => (x - μ)^2) (σ^2)]
  have hvar : (v.map (fun x => (x - μ)^2)).sum = sampleVar v * ((v.length : ℝ) - 1) := by
    rw [hmu]
    unfold sampleVar
    rw [div_mul_cancel₀ _ hn1]
  rw [hvar, hs2]
  field_simp

/-- Closed form of `zscore_sos` on a nonempty list, phrased with
`sampleMean`/`sampleVar`. -/
theorem zscore_sos_eq (x : String × ℚ) (xs : List (String × ℚ)) :
    zscore_sos (x :: xs)
      = (if (x :: xs).length < 2 then (x :: xs).map (fun p => (p.1, (0:ℝ)))
         else if Real.sqrt (sampleVar ((x :: xs).map (fun p => ((p.2 : ℚ) : ℝ)))) = 0
         then (x :: xs).map (fun p => (p.1, (0:ℝ)))
         else (x :: xs).map (fun p => (p.1,
            (((p.2 : ℚ) : ℝ) - sampleMean ((x :: xs).map (fun q => ((q.2 : ℚ) : ℝ))))
              / Real.sqrt (sampleVar ((x :: xs).map (fun q => ((q.2 : ℚ) : ℝ))))))) := by
  simp only [zscore_sos, sampleVar, sampleMean, List.length_map]

/-- Claim C9: `zscore_sos` subtracts the mean and divides by the sample
standard deviation (n−1 denominator, square root of the sample variance);
with fewer than 2 teams, or zero variance (zero standard deviation), every
returned z-score is 0 (the division is never reached); for n ≥ 2 teams with
nonzero spread the returned z-scores have sample mean 0 and sample variance
(hence sample standard deviation) 1. -/
theorem zscore_sos_spec :
    (∀ l : List (String × ℚ), l.length < 2 → ∀ p ∈ zscore_sos l, p.2 = 0)
      ∧ (∀ l : List (String × ℚ), 2 ≤ l.length →
          sampleVar (l.map (fun p => ((p.2 : ℚ) : ℝ))) = 0 →
          ∀ p ∈ zscore_sos l, p.2 = 0)
      ∧ (∀ l : List (String × ℚ), 2 ≤ l.length →
          sampleVar (l.map (fun p => ((p.2 : ℚ) : ℝ))) ≠ 0 →
          zscore_sos l = l.map (fun p => (p.1,
              (((p.2 : ℚ) : ℝ) - sampleMean (l.map (fun q => ((q.2 : ℚ) : ℝ))))
                / Real.sqrt (sampleVar (l.map (fun q => ((q.2 : ℚ) : ℝ))))))
            ∧ sampleMean ((zscore_sos l).map (fun p => p.2)) = 0
            ∧ sampleVar ((zscore_sos l).map (fun p => p.2)) = 1) := by
  refine ⟨?_, ?_, ?_⟩
  · intro l hl p hp
    cases l with
    | nil => simp [zscore_sos] at hp
    | cons x xs =>
      rw [zscore_sos_eq, if_pos hl] at hp
      obtain ⟨q, hq, rfl⟩ := List.mem_map.mp hp
      rfl
  · intro l h2 hvar p hp
    cases l with
    | nil => simp [zscore_sos] at hp
    | cons x xs =>
      rw [zscore_sos_eq, if_neg (not_lt.mpr h2), if_pos (by rw [hvar, Real.sqrt_zero])] at hp
      obtain ⟨q, hq, rfl⟩ := List.mem_map.mp hp
      rfl
  · intro l h2 hvar
    cases l with
    | nil => simp at h2
    | cons x xs =>
      set V := (x :: xs).map (fun q : String × ℚ => ((q.2 : ℚ) : ℝ)) with hV
      have h2' : 2 ≤ V.length := by
        rw [hV, List.length_map]
        exact h2
      have hvpos : 0 < sampleVar V :=
        lt_of_le_of_ne (sampleVar_nonneg V h2') (Ne.symm hvar)
      have hs : Real.sqrt (sampleVar V) ≠ 0 := Real.sqrt_ne_zero'.mpr hvpos
      have hform : zscore_sos (x :: xs) = (x :: xs).map (fun p => (p.1,
          (((p.2 : ℚ) : ℝ) - sampleMean V) / Real.sqrt (sampleVar V))) := by
        rw [zscore_sos_eq, if_neg (not_lt.mpr h2), if_neg hs]
      have hz := zscore_normalizes V h2' hvar
      have hkey : ((fun (p : String × ℝ) => p.2) ∘ (fun p : String × ℚ => (p.1,
          (((p.2 : ℚ) : ℝ) - sampleMean V) / Real.sqrt (sampleVar V))))
        = ((fun y : ℝ => (y - sampleMean V) / Real.sqrt (sampleVar V))
            ∘ (fun q : String × ℚ => ((q.2 : ℚ) : ℝ))) := rfl
      have hvals : (zscore_sos (x :: xs)).map (fun p => p.2)
          = V.map (fun y : ℝ => (y - sampleMean V) / Real.sqrt (sampleVar V)) := by
        rw [hform, List.map_map, hkey, ← List.map_map, ← hV]
      exact ⟨hform, by rw [hvals]; exact hz.1, by rw [hvals]; exact hz.2⟩

/-- Witness for Claim C9: z-scoring the two-team table `{a: 0, b: 1}` (mean
1/2, sample variance 1/2) yields z-scores with sample mean 0 and sample
variance 1; a single-team table gets all-zero z-scores. -/
theorem zscore_sos_spec_witness :
    sampleMean ((zscore_sos [("a", 0), ("b", 1)]).map (fun p => p.2)) = 0
      ∧ sampleVar ((zscore_sos [("a", 0), ("b", 1)]).map (fun p => p.2)) = 1
      ∧ (∀ p ∈ zscore_sos [("c", (5:ℚ))], p.2 = 0) := by
  have h3 := zscore_sos_spec.2.2 [("a", 0), ("b", 1)] (by norm_num)
    (by norm_num [sampleVar, sampleMean])
  have h1 := zscore_sos_spec.1 [("c", (5:ℚ))] (by norm_num)
  exact ⟨h3.2.1, h3.2.2, h1⟩

/-- Claim C10: `aggregate_keys` with the empty team label takes the team of
the *first* list element, while every numeric field is a (rounded) sum or a
rate recomputed from sums and hence permutation-invariant; so permuting a
list whose elements carry different team names changes only the `team`
field, as the concrete swap of an "X"-labelled and a "Y"-labelled record
shows. -/
theorem aggregate_keys_team_first_permutation
    :
    (∀ (k : TeamKeys) (ks : List TeamKeys), (aggregate_keys (k :: ks) "").team = k.team)
      ∧ (∀ (l l' : List TeamKeys) (t : String), l.Perm l' →
          (aggregate_keys l t).top_min = (aggregate_keys l' t).top_min
          ∧ (aggregate_keys l t).turnovers = (aggregate_keys l' t).turnovers
          ∧ (aggregate_keys l t).big_plays = (aggregate_keys l' t).big_plays
          ∧ (aggregate_keys l t).third_down_pct = (aggregate_keys l' t).third_down_pct
          ∧ (aggregate_keys l t).redzone_td_pct = (aggregate_keys l' t).redzone_td_pct
          ∧ (aggregate_keys l t).third_down_attempts
              = (aggregate_keys l' t).third_down_attempts
          ∧ (aggregate_keys l t).third_down_converted
              = (aggregate_keys l' t).third_down_converted
          ∧ (aggregate_keys l t).redzone_trips = (aggregate_keys l' t).redzone_trips
          ∧ (aggregate_keys l t).redzone_td_drives
              = (aggregate_keys l' t).redzone_td_drives)
      ∧ ((aggregate_keys [exTeamX, exTeamY] "").team = "X"
         ∧ (aggregate_keys [exTeamY, exTeamX] "").team = "Y") := by
  refine ⟨?_, ?_, ?_, ?_⟩
  · intro k ks
    simp [aggregate_keys]
  · intro l l' t h
    have hsum : ∀ (f : TeamKeys → ℚ), (l.map f).sum = (l'.map f).sum :=
      fun f => List.Perm.sum_eq (List.Perm.map f h)
    have hsumz : ∀ (f : TeamKeys → ℤ), (l.map f).sum = (l'.map f).sum :=
      fun f => List.Perm.sum_eq (List.Perm.map f h)
    cases l with
    | nil =>
      have : l' = [] := List.Perm.eq_nil h.symm
      subst this
      exact ⟨rfl, rfl, rfl, rfl, rfl, rfl, rfl, rfl, rfl⟩
    | cons k0 ks =>
      cases l' with
      | nil => exact absurd (List.Perm.eq_nil h) (by simp)
      | cons k0' ks' =>
        refine ⟨?_, ?_, ?_, ?_, ?_, ?_, ?_, ?_, ?_⟩ <;>
          simp only [aggregate_keys, hsum (fun k => k.top_min),
            hsumz (fun k => k.turnovers), hsumz (fun k => k.big_plays),
            hsumz (fun k => k.third_down_attempts), hsumz (fun k => k.third_down_converted),
            hsumz (fun k => k.redzone_trips), hsumz (fun k => k.redzone_td_drives)]
  · simp [aggregate_keys, exTeamX, emptyTeamKeys]
  · simp [aggregate_keys, exTeamY, emptyTeamKeys]

/-- Witness for Claim C10: swapping the two records keeps the numeric
fields of the aggregate equal (applied to the "X"/"Y" example lists used to
show the team label does change). -/
theorem aggregate_keys_team_first_permutation_witness :
    (aggregate_keys [exTeamX, exTeamY] "").top_min
        = (aggregate_keys [exTeamY, exTeamX] "").top_min
      ∧ (aggregate_keys [exTeamX, exTeamY] "").turnovers
        = (aggregate_keys [exTeamY, exTeamX] "").turnovers
      ∧ (aggregate_keys [exTeamX, exTeamY] "").third_down_pct
        = (aggregate_keys [exTeamY, exTeamX] "").third_down_pct := by
  have h := aggregate_keys_team_first_permutation.2.1 [exTeamX, exTeamY]
    [exTeamY, exTeamX] "" (List.Perm.swap exTeamY exTeamX [])
  exact ⟨h.1, h.2.1, h.2.2.2.1⟩
